import Mathlib

/-!
Verification development for the QGAT repository (QTL and Gene Annotation Tool).

The Python sources (`QGAT/utils.py`, `QGAT/annotate.py`, `QGAT/main.py`) are
shallowly embedded below.  File I/O (opening files, gzip, `pd.read_csv`) is an
external collaborator per the specification; the embedding starts from
already-decoded rows/lines.  Machine integers are modelled as `Int` (Python
ints are unbounded), tabular cells as `Val`, missing values (`NaN`/`None`) as
`Option`/`Val.null`.  Fallible code returns `Except String`.
-/

namespace QGAT

/-- A tabular cell value: integer, string, or null (pandas `NaN` / Python `None`). -/
inductive Val where
  | int (i : Int)
  | str (s : String)
  | null
deriving DecidableEq, Repr

/-- ASCII whitespace recognised by Python `str.strip()` / `int()` (space, tab,
newline, carriage return, vertical tab, form feed). -/
def isPySpace (c : Char) : Bool :=
  c == ' ' || c == '\t' || c == '\n' || c == '\r' || c == Char.ofNat 11 || c == Char.ofNat 12

/-- Strip leading and trailing characters satisfying `p` from a character list. -/
def stripWhile (p : Char → Bool) (cs : List Char) : List Char :=
  ((cs.dropWhile p).reverse.dropWhile p).reverse

/-- Python `str.strip()` (whitespace on both ends). -/
def pyStrip (s : String) : String := String.mk (stripWhile isPySpace s.toList)

/-- Digit run of a Python integer literal after the first digit: digits with
single underscores allowed between digits (as accepted by Python `int`). -/
def pdAux (acc : Nat) : List Char → Option Nat
  | [] => some acc
  | '_' :: c :: cs => if c.isDigit then pdAux (10 * acc + (c.toNat - 48)) cs else none
  | c :: cs => if c.isDigit then pdAux (10 * acc + (c.toNat - 48)) cs else none

/-- Nonempty digit run (with internal underscores), as accepted by Python `int`. -/
def parseDigits : List Char → Option Nat
  | [] => none
  | c :: cs => if c.isDigit then pdAux (c.toNat - 48) cs else none

/-- Python `int(s)` on a decimal string: optional surrounding whitespace,
optional sign, nonempty digit run.  `none` models the `ValueError` case. -/
def pyInt (s : String) : Option Int :=
  match stripWhile isPySpace s.toList with
  | '+' :: rest => (parseDigits rest).map (fun n => (n : Int))
  | '-' :: rest => (parseDigits rest).map (fun n => -(n : Int))
  | rest => (parseDigits rest).map (fun n => (n : Int))

/-- Split a character list on a separator character, Python `str.split(sep)`
semantics for a one-character separator (empty input yields `[[]]`). -/
def splitOnChar (sep : Char) : List Char → List (List Char)
  | [] => [[]]
  | c :: cs =>
    if c = sep then [] :: splitOnChar sep cs
    else
      match splitOnChar sep cs with
      | [] => [[c]]
      | w :: ws => (c :: w) :: ws

/-- Python `s.split('\t')`. -/
def splitTab (s : String) : List String := (splitOnChar '\t' s.toList).map String.mk

/-- Match a literal character sequence at the head of the input; on success
return the remainder. -/
def matchLit : List Char → List Char → Option (List Char)
  | [], s => some s
  | _ :: _, [] => none
  | p :: ps, c :: cs => if c = p then matchLit ps cs else none

/-- Python `s.startswith(pat)`. -/
def startsWithStr (pat s : String) : Bool := (matchLit pat.toList s.toList).isSome

/-- Python `" ".join(parts)`. -/
def joinSpace : List String → String
  | [] => ""
  | [x] => x
  | x :: xs => x ++ " " ++ joinSpace xs

/-! ## `utils.parse_qtl_bed` (utils.py lines 22-71)

Rows are the tab-split records delivered by `csv.reader`. -/

/-- `re.match(r"\((\d+)\)", val)`: the value starts with `(`, a nonempty digit
run, and `)`; returns the captured digits. -/
def matchParen (s : String) : Option String :=
  match s.toList with
  | '(' :: rest =>
    let ds := rest.takeWhile Char.isDigit
    match ds, rest.drop ds.length with
    | [], _ => none
    | _, ')' :: _ => some (String.mk ds)
    | _, _ => none
  | _ => none

/-- The name-accumulation loop of `parse_qtl_bed` over columns 3..N: append
each field, and stop right after the first field matching `matchParen`,
capturing its digits as the QTL number. -/
def scanName : List String → List String × Option String
  | [] => ([], none)
  | v :: rest =>
    match matchParen v with
    | some d => ([v], some d)
    | none => (v :: (scanName rest).1, (scanName rest).2)

/-- One record of `parse_qtl_bed`'s output DataFrame. -/
structure BedRec where
  chromosome : String
  qtl_start : Int
  qtl_end : Int
  qtl_name : String
  qtl_number : Option String
deriving DecidableEq, Repr

/-- Process one csv row of `parse_qtl_bed`: rows with fewer than 4 columns are
skipped (`ok none`); `int()` failures on columns 1/2 raise (`error`). -/
def processBedRow (row : List String) : Except String (Option BedRec) :=
  if row.length < 4 then .ok none
  else
    match row with
    | c :: s :: e :: rest =>
      match pyInt s, pyInt e with
      | some sv, some ev =>
        let (parts, num) := scanName rest
        .ok (some ⟨c, sv, ev, pyStrip (joinSpace parts), num⟩)
      | _, _ => .error "invalid literal for int() with base 10"
    | _ => .ok none

/-- `utils.parse_qtl_bed` over the already-split rows: accumulate records in
order; a raised `ValueError` aborts the whole parse. -/
def parse_qtl_bed : List (List String) → Except String (List BedRec)
  | [] => .ok []
  | row :: rest => do
    let r? ← processBedRow row
    let rs ← parse_qtl_bed rest
    match r? with
    | some r => .ok (r :: rs)
    | none => .ok rs

/-! ## `utils.parse_qtl_gff` (utils.py lines 74-128)

Input is the sequence of text lines of the (already decompressed) file. -/

/-- Python `info.strip(';')`: drop leading/trailing semicolons. -/
def stripSemis (s : String) : String := String.mk (stripWhile (fun c => c == ';') s.toList)

/-- Python `s.split(';')`. -/
def splitSemi (s : String) : List String := (splitOnChar ';' s.toList).map String.mk

/-- Python `s.split('=')`. -/
def splitEq (s : String) : List String := (splitOnChar '=' s.toList).map String.mk

/-- `dict(item.split('=') for item in ... if '=' in item)`: items without `=`
are filtered out; an item splitting into other than two parts makes the `dict`
constructor raise (`error`). -/
def buildPairs : List String → Except String (List (String × String))
  | [] => .ok []
  | item :: rest =>
    if item.toList.contains '=' then
      match splitEq item with
      | [k, v] => do
        let ps ← buildPairs rest
        .ok ((k, v) :: ps)
      | _ => .error "dictionary update sequence element has wrong length"
    else buildPairs rest

/-- `dict.get(k, d)` with Python overwrite semantics: the last binding of a
key wins. -/
def dictGet (pairs : List (String × String)) (k d : String) : String :=
  match pairs.reverse.find? (fun p => p.1 == k) with
  | some p => p.2
  | none => d

/-- One record of `parse_qtl_gff`'s output DataFrame. -/
structure GffRec where
  chromosome : String
  qtl_start : Int
  qtl_end : Int
  qtl_name : String
  qtl_number : String
  trait : String
  p_value : String
deriving DecidableEq, Repr

/-- `int(s)` as `Except`, matching the raised `ValueError` on failure. -/
def pyIntE (s : String) : Except String Int :=
  match pyInt s with
  | some v => .ok v
  | none => .error ("invalid literal for int() with base 10: " ++ s)

/-- Process one line of `parse_qtl_gff`: skip comments and blank lines, skip
lines whose tab-split is not 9 columns, parse columns 3/4 as ints (raising on
failure), and build the attribute mapping from column 8. -/
def processGffLine (line : String) : Except String (Option GffRec) :=
  if startsWithStr "#" line || pyStrip line == "" then .ok none
  else
    let parts := splitTab (pyStrip line)
    if parts.length ≠ 9 then .ok none
    else do
      let sv ← pyIntE (parts.getD 3 "")
      let ev ← pyIntE (parts.getD 4 "")
      let info ← buildPairs (splitSemi (stripSemis (parts.getD 8 "")))
      .ok (some { chromosome := parts.getD 0 "", qtl_start := sv, qtl_end := ev,
                  qtl_name := dictGet info "Name" "",
                  qtl_number := dictGet info "QTL_ID" "",
                  trait := parts.getD 2 "",
                  p_value := dictGet info "P-value" "" })

/-- `utils.parse_qtl_gff` over the file's lines; a raised exception aborts the
whole parse. -/
def parse_qtl_gff : List String → Except String (List GffRec)
  | [] => .ok []
  | line :: rest => do
    let r? ← processGffLine line
    let rs ← parse_qtl_gff rest
    match r? with
    | some r => .ok (r :: rs)
    | none => .ok rs

/-! ## `utils.parse_input_regions` (utils.py lines 9-19) and the query rows of
`annotate.annotate_regions` (annotate.py lines 43-58)

A raw query row is one data row of the tab-delimited query file, with the
three required columns plus any further columns (`extra`); the required-column
check itself is on the header and is reflected by the row type. -/

/-- A raw query-file row: `chromosome`, `start`, `end` as text, plus any extra
columns. (`end` is a Lean keyword, hence the field name `end_`.) -/
structure RawQueryRow where
  chromosome : String
  start : String
  end_ : String
  extra : List (String × Val)
deriving DecidableEq, Repr

/-- A parsed query region (the in-memory form used by both overlap loops). -/
structure Region where
  chromosome : String
  start : Int
  end_ : Int
  extra : List (String × Val)
deriving DecidableEq, Repr

/-- The chromosome normalization of `parse_input_regions`:
`f"Chr.{x}" if not str(x).startswith("Chr.") else x`. -/
def normalizeChrom (c : String) : String :=
  if startsWithStr "Chr." c then c else "Chr." ++ c

/-- The `astype(int)` coercion of `parse_input_regions`: strict, any failure
raises. -/
def coerceRegions : List RawQueryRow → Except String (List Region)
  | [] => .ok []
  | r :: rest =>
    match pyInt r.start, pyInt r.end_ with
    | some s, some e => do
      let rs ← coerceRegions rest
      .ok (⟨r.chromosome, s, e, r.extra⟩ :: rs)
    | _, _ => .error "invalid literal for int() with base 10"

/-- `utils.parse_input_regions` over the data rows: prefix `"Chr."` to each
chromosome unless already present, then coerce start/end with `astype(int)`. -/
def parse_input_regions (rows : List RawQueryRow) : Except String (List Region) :=
  coerceRegions (rows.map (fun r => { r with chromosome := normalizeChrom r.chromosome }))

/-- The query-row coercion inside `annotate_regions` (annotate.py lines 56-58):
`pd.to_numeric(..., errors="coerce")` then `dropna` — rows with unparsable
start/end are silently dropped, and the chromosome is left untouched. -/
def annotateLoadQueries (rows : List RawQueryRow) : List Region :=
  rows.filterMap (fun r =>
    match pyInt r.start, pyInt r.end_ with
    | some s, some e => some ⟨r.chromosome, s, e, r.extra⟩
    | _, _ => none)

/-! ## `utils.find_overlapping_qtls` (utils.py lines 131-155) -/

/-- A reference QTL row as consumed by `find_overlapping_qtls`: the five fixed
columns produced by the QTL parsers, plus any further columns (`extra`, e.g.
`trait` and `p_value` from the GFF parser), in DataFrame column order. -/
structure QtlRef where
  chromosome : String
  qtl_start : Int
  qtl_end : Int
  qtl_name : String
  qtl_number : Option String
  extra : List (String × Val)
deriving DecidableEq, Repr

/-- `Option String` as a cell value (`None` becomes null). -/
def valOfOpt : Option String → Val
  | none => .null
  | some s => .str s

/-- The overlap test of `find_overlapping_qtls`:
`chromosome == region.chromosome and qtl_end >= region.start and qtl_start <= region.end`. -/
def overlapPred (region : Region) (q : QtlRef) : Bool :=
  q.chromosome == region.chromosome
    && decide (region.start ≤ q.qtl_end) && decide (q.qtl_start ≤ region.end_)

/-- The seven fixed entries of the result dict built for one (region, qtl)
pair, in insertion order (utils.py lines 141-149). -/
def overlapBase (region : Region) (q : QtlRef) : List (String × Val) :=
  [("chromosome", .str region.chromosome), ("region_start", .int region.start),
   ("region_end", .int region.end_), ("qtl_start", .int q.qtl_start),
   ("qtl_end", .int q.qtl_end), ("qtl_name", .str q.qtl_name),
   ("qtl_number", valOfOpt q.qtl_number)]

/-- The reference row's own columns in DataFrame order (`qtl.index`). -/
def qtlFieldList (q : QtlRef) : List (String × Val) :=
  [("chromosome", .str q.chromosome), ("qtl_start", .int q.qtl_start),
   ("qtl_end", .int q.qtl_end), ("qtl_name", .str q.qtl_name),
   ("qtl_number", valOfOpt q.qtl_number)] ++ q.extra

/-- `if col not in result: result[col] = qtl[col]` for one column. -/
def addIfAbsent (res : List (String × Val)) (kv : String × Val) : List (String × Val) :=
  if res.any (fun p => p.1 == kv.1) then res else res ++ [kv]

/-- The full output record for one (region, qtl) pair: the seven fixed entries,
then every reference column not already present (utils.py lines 150-152). -/
def mkOverlapRec (region : Region) (q : QtlRef) : List (String × Val) :=
  (qtlFieldList q).foldl addIfAbsent (overlapBase region q)

/-- `utils.find_overlapping_qtls`: for each region in order, every reference
row passing the overlap test, in reference order. -/
def find_overlapping_qtls (input : List Region) (qtls : List QtlRef) :
    List (List (String × Val)) :=
  input.flatMap (fun region => (qtls.filter (overlapPred region)).map (mkOverlapRec region))

/-! ## `annotate.sort_and_load_gtf` (annotate.py lines 7-40)

A `GtfRow` is one data row of the (comment-stripped) tab-delimited GTF source
as delivered by `pd.read_csv(..., names=[...], dtype=str)`: each of the nine
named columns is a string, or `none` for a missing (`NaN`) cell. -/

/-- One raw GTF row (nine columns, `dtype=str`). -/
structure GtfRow where
  chromosome : Option String
  source : Option String
  feature : Option String
  start : Option String
  end_ : Option String
  score : Option String
  strand : Option String
  frame : Option String
  attr : Option String
deriving DecidableEq, Repr

/-- `[^"]+` capture after a literal: the maximal nonempty run of non-quote
characters, which must be closed by a quote. -/
def captureNonQuote (cs : List Char) : Option String :=
  let v := cs.takeWhile (fun c => c != '"')
  if v.isEmpty then none
  else
    match cs.drop v.length with
    | '"' :: _ => some (String.mk v)
    | _ => none

/-- `re.search` of `<lit>([^"]+)"` over the input: at each position try the
literal then the capture; first full match wins. -/
def extractAuxQ (lit : List Char) : List Char → Option String
  | [] => none
  | c :: cs =>
    match matchLit lit (c :: cs) with
    | some rest =>
      match captureNonQuote rest with
      | some v => some v
      | none => extractAuxQ lit cs
    | none => extractAuxQ lit cs

/-- `Series.str.extract(r'<lit>([^"]+)"')` on one cell. -/
def extractQuoted (lit : String) (s : String) : Option String :=
  extractAuxQ lit.toList s.toList

/-- One record of the DataFrame returned by `sort_and_load_gtf` (the eight
selected columns, with `width = end - start + 1`). -/
structure GeneRec where
  chromosome : String
  start : Int
  end_ : Int
  width : Int
  strand : Option String
  gene_id : String
  gene_name : Option String
  gene_biotype : Option String
deriving DecidableEq, Repr

/-- `feature.isin(["gene", "transcript", "exon"])`. -/
def featureKeep (f : String) : Bool :=
  f == "gene" || f == "transcript" || f == "exon"

/-- The row-wise pipeline of `sort_and_load_gtf` after the raw-emptiness
check: extract identifiers with the dialect's patterns (default:
`gene_id "…"` / `gene_name "…"`; NCBI: `db_xref "GeneID:…"` / `gene "…"`; both:
`gene_biotype "…"`), keep only gene/transcript/exon rows, drop rows missing
chromosome/start/end/gene_id, coerce start/end to numbers dropping failures,
and derive `width`. -/
def geneOfRow (is_ncbi : Bool) (r : GtfRow) : Option GeneRec :=
  let gid := r.attr.bind
    (extractQuoted (if is_ncbi then "db_xref \"GeneID:" else "gene_id \""))
  let gname := r.attr.bind
    (extractQuoted (if is_ncbi then "gene \"" else "gene_name \""))
  let gbio := r.attr.bind (extractQuoted "gene_biotype \"")
  match r.feature with
  | none => none
  | some f =>
    if featureKeep f then
      match r.chromosome, r.start, r.end_, gid with
      | some c, some s, some e, some g =>
        match pyInt s, pyInt e with
        | some sv, some ev => some ⟨c, sv, ev, ev - sv + 1, r.strand, g, gname, gbio⟩
        | _, _ => none
      | _, _, _, _ => none
    else none

/-- `annotate.sort_and_load_gtf` over the parsed rows (file opening is
external): raises "GTF file is empty after parsing." when the RAW row set is
empty — the check precedes all filtering — otherwise returns the filtered
records. -/
def sort_and_load_gtf (rows : List GtfRow) (is_ncbi : Bool) :
    Except String (List GeneRec) :=
  if rows.isEmpty then .error " GTF file is empty after parsing."
  else .ok (rows.filterMap (geneOfRow is_ncbi))

/-! ## `annotate.annotate_regions` (annotate.py lines 43-103) -/

/-- One output row of `annotate_regions` (annotate.py lines 69-81). -/
structure AnnRec where
  chromosome : String
  start : Int
  end_ : Int
  gene_chr : String
  gene_start_pos : Int
  gene_end_pos : Int
  width : Int
  strand : Option String
  gene_id : String
  gene_name : Option String
  gene_biotype : Option String
deriving DecidableEq, Repr

/-- The overlap test of `annotate_regions`:
`chromosome == chrom and end >= start and start <= end`. -/
def annPred (region : Region) (g : GeneRec) : Bool :=
  g.chromosome == region.chromosome
    && decide (region.start ≤ g.end_) && decide (g.start ≤ region.end_)

/-- The record appended for one (region, gene) pair (annotate.py lines 69-81). -/
def mkAnnRec (region : Region) (g : GeneRec) : AnnRec :=
  ⟨region.chromosome, region.start, region.end_, g.chromosome, g.start, g.end_,
   g.width, g.strand, g.gene_id, g.gene_name, g.gene_biotype⟩

/-- The nested overlap loop of `annotate_regions` (annotate.py lines 60-81). -/
def annotateOverlaps (input : List Region) (gtf : List GeneRec) : List AnnRec :=
  input.flatMap (fun region => (gtf.filter (annPred region)).map (mkAnnRec region))

/-- First-occurrence deduplication (the distinct labels of a column). -/
def dedupFirst : List String → List String
  | [] => []
  | x :: xs => x :: (dedupFirst xs).filter (fun y => y != x)

/-- Ascending insertion into a sorted string list (Python `sorted`). -/
def insertSorted (s : String) : List String → List String
  | [] => [s]
  | x :: xs => if s < x then s :: x :: xs else x :: insertSorted s xs

/-- Python `sorted` on strings. -/
def sortStrings (l : List String) : List String := l.foldr insertSorted []

/-- The ChromosomeMismatch message of annotate.py lines 90-96, enumerating both
sorted label sets (list rendering approximates Python's). -/
def mismatchMsg (inputChrs gtfChrs : List String) : String :=
  "\n No overlapping genes found AND no matching chromosome names.\n" ++
  "  Input file chromosomes: " ++ toString (sortStrings inputChrs) ++ "\n" ++
  "  GTF file chromosomes: " ++ toString (sortStrings gtfChrs) ++ "\n" ++
  "  → Possible cause: input uses plain numbers (1,2,3) but GTF uses NCBI IDs (e.g., NC_037328.1).\n" ++
  "  → Fix: Adjust input chromosome names to match GTF, or use --ncbi if not already.\n"

/-- `result_df["gene_name"].fillna("NA").replace("", "NA")` on one record. -/
def fillGeneName (a : AnnRec) : AnnRec :=
  { a with gene_name :=
      match a.gene_name with
      | none => some "NA"
      | some "" => some "NA"
      | some s => some s }

/-- Distinct chromosome labels of the (coerced) query rows. -/
def chromsOfRegions (input : List Region) : List String :=
  dedupFirst (input.map (fun r => r.chromosome))

/-- Distinct chromosome labels of the GTF reference records. -/
def chromsOfGtf (gtf : List GeneRec) : List String :=
  dedupFirst (gtf.map (fun g => g.chromosome))

/-- `annotate.annotate_regions` over the raw query rows (file reading and the
required-column header check are external; the row type carries the three
required columns): empty-input check, lenient numeric coercion, the nested
overlap loop, then — on an empty result — the chromosome-mismatch diagnostic:
a raised error when the label sets share nothing, a non-fatal empty result
otherwise.  On a non-empty result, missing/empty gene names become "NA". -/
def annotate_regions (rows : List RawQueryRow) (gtf : List GeneRec) :
    Except String (List AnnRec) :=
  if rows.isEmpty then .error " Input file is empty."
  else
    let input := annotateLoadQueries rows
    let overlaps := annotateOverlaps input gtf
    if overlaps.isEmpty then
      let common := (chromsOfRegions input).filter
        (fun c => (chromsOfGtf gtf).contains c)
      if common.isEmpty then
        .error (mismatchMsg (chromsOfRegions input) (chromsOfGtf gtf))
      else .ok []
    else .ok (overlaps.map fillGeneName)

/-! ## `main.clean_qtl_name` and the QTL summary (main.py lines 25-27, 70-75) -/

/-- `.*?\)` after the opening parenthesis: scan to the first `)`; `.` does not
match a newline, so a newline before the closing parenthesis kills the match. -/
def findClose : List Char → Option (List Char)
  | [] => none
  | ')' :: rest => some rest
  | '\n' :: _ => none
  | _ :: rest => findClose rest

/-- Try to match `\s*\(.*?\)` anchored at the head of the input; on success
return the remainder after the match. -/
def subMatch (cs : List Char) : Option (List Char) :=
  match cs.dropWhile isPySpace with
  | '(' :: rest => findClose rest
  | _ => none

/-- `re.sub(r"\s*\(.*?\)", "", ...)`: left-to-right scan replacing every match
with nothing.  A successful match consumes at least two characters, so fuel
equal to the input length suffices; fuel keeps the recursion structural. -/
def cleanAux : Nat → List Char → List Char
  | 0, l => l
  | _ + 1, [] => []
  | fuel + 1, c :: cs =>
    match subMatch (c :: cs) with
    | some rest => cleanAux fuel rest
    | none => c :: cleanAux fuel cs

/-- `main.clean_qtl_name`: strip every `\s*\(.*?\)` group, then `strip()`. -/
def clean_qtl_name (s : String) : String :=
  pyStrip (String.mk (cleanAux s.toList.length s.toList))

/-- The trait frequency table of `run_qtl` (main.py lines 70-75):
`value_counts` over `qtl_name.apply(clean_qtl_name)` — one entry per distinct
cleaned name (first-occurrence order), counting the records sharing it. -/
def qtl_trait_counts (names : List String) : List (String × Nat) :=
  (dedupFirst (names.map clean_qtl_name)).map
    (fun t => (t, (names.map clean_qtl_name).count t))

/-! ## Theorems -/

/-- `overlapPred` as a proposition. -/
lemma overlapPred_iff (region : Region) (q : QtlRef) :
    overlapPred region q = true ↔
      q.chromosome = region.chromosome ∧ region.start ≤ q.qtl_end ∧
        q.qtl_start ≤ region.end_ := by
  simp [overlapPred, Bool.and_eq_true, and_assoc]

/-- `annPred` as a proposition. -/
lemma annPred_iff (region : Region) (g : GeneRec) :
    annPred region g = true ↔
      g.chromosome = region.chromosome ∧ region.start ≤ g.end_ ∧
        g.start ≤ region.end_ := by
  simp [annPred, Bool.and_eq_true, and_assoc]

/-- C1.  Both overlap engines emit exactly the pairs satisfying the
closed-interval test `reference.chromosome == query.chromosome ∧
reference.end ≥ query.start ∧ reference.start ≤ query.end`: a record is in
the output iff it is built from a query row and a reference row satisfying
the predicate (soundness and completeness, for `find_overlapping_qtls` and
for the overlap loop of `annotate_regions` alike). -/
theorem overlap_engine_exact :
    (∀ (input : List Region) (qtls : List QtlRef) (rec : List (String × Val)),
      rec ∈ find_overlapping_qtls input qtls ↔
        ∃ region ∈ input, ∃ q ∈ qtls,
          q.chromosome = region.chromosome ∧ region.start ≤ q.qtl_end ∧
            q.qtl_start ≤ region.end_ ∧ rec = mkOverlapRec region q) ∧
    (∀ (input : List Region) (gtf : List GeneRec) (a : AnnRec),
      a ∈ annotateOverlaps input gtf ↔
        ∃ region ∈ input, ∃ g ∈ gtf,
          g.chromosome = region.chromosome ∧ region.start ≤ g.end_ ∧
            g.start ≤ region.end_ ∧ a = mkAnnRec region g) := by
  constructor
  · intro input qtls rec
    simp only [find_overlapping_qtls, List.mem_flatMap, List.mem_map,
      List.mem_filter, overlapPred_iff]
    constructor
    · rintro ⟨region, hr, q, ⟨hq, h1, h2, h3⟩, hrec⟩
      exact ⟨region, hr, q, hq, h1, h2, h3, hrec.symm⟩
    · rintro ⟨region, hr, q, hq, h1, h2, h3, hrec⟩
      exact ⟨region, hr, q, ⟨hq, h1, h2, h3⟩, hrec.symm⟩
  · intro input gtf a
    simp only [annotateOverlaps, List.mem_flatMap, List.mem_map,
      List.mem_filter, annPred_iff]
    constructor
    · rintro ⟨region, hr, g, ⟨hg, h1, h2, h3⟩, ha⟩
      exact ⟨region, hr, g, hg, h1, h2, h3, ha.symm⟩
    · rintro ⟨region, hr, g, hg, h1, h2, h3, ha⟩
      exact ⟨region, hr, g, ⟨hg, h1, h2, h3⟩, ha.symm⟩

/-- C8.  The overlap engine is deterministic: running it twice on the same
query and reference inputs yields identical output including row order (the
embedding is a pure function of its inputs; the code has no source of
nondeterminism). -/
theorem overlap_deterministic :
    ∀ (input : List Region) (qtls : List QtlRef) (input2 : List Region)
      (gtf : List GeneRec),
      find_overlapping_qtls input qtls = find_overlapping_qtls input qtls ∧
        annotateOverlaps input2 gtf = annotateOverlaps input2 gtf :=
  fun _ _ _ _ => ⟨rfl, rfl⟩

/-- A query region on a bare-prefixed chromosome label. -/
def regionA : Region := ⟨"Chr.1", 100, 200, []⟩

/-- A reference QTL on an accession-style chromosome label. -/
def qtlA : QtlRef := ⟨"NC_037328.1", 100, 200, "G", none, []⟩

/-- C2 counterexample.  In the QTL workflow the query and reference chromosome
label sets are disjoint, yet `find_overlapping_qtls` returns the plain empty
result set — it is a total function into lists with no error channel, and
`run_qtl` writes its output unconditionally — so no ChromosomeMismatch error
is raised, contrary to the claim that both workflows diagnose this case. -/
theorem qtl_workflow_no_mismatch_diag :
    find_overlapping_qtls [regionA] [qtlA] = [] ∧
      regionA.chromosome ≠ qtlA.chromosome := by
  decide

/-- C2 (amended).  The empty-overlap diagnosis holds in the gene-annotation
workflow only: there, an empty overlap set with disjoint chromosome-label sets
raises the ChromosomeMismatch error enumerating both label sets, and an empty
overlap set with a shared label yields the non-fatal empty result.  The QTL
workflow performs no such check: `find_overlapping_qtls` returns a plain
empty result even when every query chromosome differs from every reference
chromosome. -/
theorem empty_overlap_diagnosis :
    (∀ (rows : List RawQueryRow) (gtf : List GeneRec), rows ≠ [] →
      annotateOverlaps (annotateLoadQueries rows) gtf = [] →
      ((chromsOfRegions (annotateLoadQueries rows)).filter
          (fun c => (chromsOfGtf gtf).contains c) = [] →
        annotate_regions rows gtf =
          .error (mismatchMsg (chromsOfRegions (annotateLoadQueries rows))
            (chromsOfGtf gtf))) ∧
      ((chromsOfRegions (annotateLoadQueries rows)).filter
          (fun c => (chromsOfGtf gtf).contains c) ≠ [] →
        annotate_regions rows gtf = .ok [])) ∧
    (∀ (input : List Region) (qtls : List QtlRef),
      (∀ r ∈ input, ∀ q ∈ qtls, r.chromosome ≠ q.chromosome) →
      find_overlapping_qtls input qtls = []) := by
  constructor
  · intro rows gtf hrows hov
    have hne : rows.isEmpty = false := by
      cases rows with
      | nil => exact absurd rfl hrows
      | cons r rs => rfl
    have hov' : (annotateOverlaps (annotateLoadQueries rows) gtf).isEmpty = true := by
      rw [hov]; rfl
    constructor
    · intro hcom
      rw [List.filter_eq_nil_iff] at hcom
      simp [annotate_regions, hne, hov']
      intro x hx
      have := hcom x hx
      simpa using this
    · intro hcom
      simp [annotate_regions, hne, hov']
      cases h : (chromsOfRegions (annotateLoadQueries rows)).filter
          (fun c => (chromsOfGtf gtf).contains c) with
      | nil => exact absurd h hcom
      | cons y ys =>
        have hy : y ∈ (chromsOfRegions (annotateLoadQueries rows)).filter
            (fun c => (chromsOfGtf gtf).contains c) := by
          rw [h]; exact List.mem_cons_self y ys
        rw [List.mem_filter] at hy
        exact ⟨y, hy.1, by simpa using hy.2⟩
  · intro input qtls h
    simp only [find_overlapping_qtls, List.flatMap_eq_nil_iff]
    intro region hr
    have hfil : qtls.filter (overlapPred region) = [] := by
      rw [List.filter_eq_nil_iff]
      intro q hq hpred
      exact h region hr q hq ((overlapPred_iff region q).mp hpred).1.symm
    rw [hfil]; rfl

/-- Query rows on chromosome `Chr.1`. -/
def rowsB : List RawQueryRow := [⟨"Chr.1", "100", "200", []⟩]

/-- A gene on the same chromosome but at non-overlapping positions. -/
def gtfB : List GeneRec := [⟨"Chr.1", 300, 400, 101, some "+", "G1", none, none⟩]

/-- A gene on an accession-style chromosome. -/
def gtfC : List GeneRec := [⟨"NC_037328.1", 100, 200, 101, some "+", "G1", none, none⟩]

/-- Witness for the amended C2 theorem: both annotate branches and the QTL
clause exercised at concrete inputs. -/
theorem empty_overlap_diagnosis_w :
    annotate_regions rowsB gtfB = .ok [] ∧
      annotate_regions rowsB gtfC =
        .error (mismatchMsg (chromsOfRegions (annotateLoadQueries rowsB))
          (chromsOfGtf gtfC)) ∧
      find_overlapping_qtls [regionA] [qtlA] = [] :=
  ⟨(empty_overlap_diagnosis.1 rowsB gtfB (by decide) (by decide)).2 (by decide),
   (empty_overlap_diagnosis.1 rowsB gtfC (by decide) (by decide)).1 (by decide),
   empty_overlap_diagnosis.2 [regionA] [qtlA] (by decide)⟩

/-- A well-formed GTF row whose feature type is `CDS` (filtered out by the
gene-model parser). -/
def cdsRow : GtfRow :=
  ⟨some "NC_1", some "src", some "CDS", some "100", some "200", some ".",
   some "+", some ".", some "gene_id \"G1\""⟩

/-- C3 counterexample.  A non-empty GTF input containing only a CDS row does
NOT raise the EmptyInput error: the emptiness check runs on the raw parsed
rows before the feature-type filter, so the parser returns an empty record
set without error, contrary to the claim. -/
theorem gtf_empty_check_before_filter :
    sort_and_load_gtf [cdsRow] false = .ok [] := rfl

/-- C3 (amended).  The gene-model parser raises the EmptyInput error exactly
when the RAW parsed row set is empty — the check precedes filtering — and for
any non-empty raw row set (even one whose filtered result is empty, such as
CDS-only input) it returns the filtered records without error. -/
theorem gtf_empty_check :
    ∀ (rows : List GtfRow) (b : Bool),
      (rows = [] →
        sort_and_load_gtf rows b = .error " GTF file is empty after parsing.") ∧
      (rows ≠ [] →
        sort_and_load_gtf rows b = .ok (rows.filterMap (geneOfRow b))) := by
  intro rows b
  constructor
  · intro h; subst h; rfl
  · intro h
    cases rows with
    | nil => exact absurd rfl h
    | cons r rs => rfl

/-- Witness for the amended C3 theorem: empty raw input raises; non-empty
CDS-only input returns the (empty) filtered set. -/
theorem gtf_empty_check_w :
    sort_and_load_gtf [] false = .error " GTF file is empty after parsing." ∧
      sort_and_load_gtf [cdsRow] true = .ok ([cdsRow].filterMap (geneOfRow true)) :=
  ⟨(gtf_empty_check [] false).1 rfl, (gtf_empty_check [cdsRow] true).2 (by decide)⟩

/-- Folding `addIfAbsent` over columns whose keys are fresh and pairwise
distinct just appends them. -/
lemma foldl_addIfAbsent_append :
    ∀ (ext : List (String × Val)) (acc : List (String × Val)),
      (ext.map Prod.fst).Nodup →
      (∀ k ∈ ext.map Prod.fst, k ∉ acc.map Prod.fst) →
      ext.foldl addIfAbsent acc = acc ++ ext
  | [], acc, _, _ => by simp
  | kv :: rest, acc, hnd, hdisj => by
    have hkv : kv.1 ∉ acc.map Prod.fst := hdisj kv.1 (by simp)
    have hany : acc.any (fun p => p.1 == kv.1) = false := by
      rw [List.any_eq_false]
      intro p hp
      simp only [beq_iff_eq]
      intro he
      exact hkv (he ▸ List.mem_map_of_mem Prod.fst hp)
    have hstep : addIfAbsent acc kv = acc ++ [kv] := by
      simp [addIfAbsent, hany]
    have hnd' : (rest.map Prod.fst).Nodup := by
      simpa using hnd.of_cons
    have hhead : kv.1 ∉ rest.map Prod.fst := by
      have := hnd
      simp only [List.map_cons, List.nodup_cons] at this
      exact this.1
    have hdisj' : ∀ k ∈ rest.map Prod.fst, k ∉ (acc ++ [kv]).map Prod.fst := by
      intro k hk
      simp only [List.map_append, List.mem_append, List.map_cons, List.map_nil,
        List.mem_singleton, List.mem_cons]
      rintro (h1 | h2)
      · exact hdisj k (by simp [hk]) h1
      · rcases h2 with h2 | h2
        · exact hhead (h2 ▸ hk)
        · exact absurd h2 (by simp)
    calc (kv :: rest).foldl addIfAbsent acc
        = rest.foldl addIfAbsent (acc ++ [kv]) := by
          simp [List.foldl_cons, hstep]
      _ = (acc ++ [kv]) ++ rest :=
          foldl_addIfAbsent_append rest (acc ++ [kv]) hnd' hdisj'
      _ = acc ++ kv :: rest := by simp

/-- The first five reference columns are already present in the base record,
so folding them is a no-op. -/
lemma foldl_fixed_noop (region : Region) (q : QtlRef) :
    ([("chromosome", Val.str q.chromosome), ("qtl_start", Val.int q.qtl_start),
      ("qtl_end", Val.int q.qtl_end), ("qtl_name", Val.str q.qtl_name),
      ("qtl_number", valOfOpt q.qtl_number)]).foldl addIfAbsent
        (overlapBase region q) = overlapBase region q := by
  simp [overlapBase, addIfAbsent]

/-- A query region carrying an extra column `label`. -/
def regionX : Region := ⟨"Chr.1", 100, 200, [("label", Val.str "x")]⟩

/-- A matching reference QTL with no extra columns. -/
def qtlX : QtlRef := ⟨"Chr.1", 150, 250, "G1", none, []⟩

/-- C4 counterexample.  The query row `regionX` carries an extra column
`label`, the reference matches it, and the single emitted overlap record does
not contain the `label` field at all: extra query columns are dropped,
contrary to the claim that all fields of the query appear in the output. -/
theorem overlap_record_drops_query_extra :
    find_overlapping_qtls [regionX] [qtlX] = [overlapBase regionX qtlX] ∧
      ("label", Val.str "x") ∉ overlapBase regionX qtlX ∧
      "label" ∉ (overlapBase regionX qtlX).map Prod.fst := by
  decide

/-- C4 (amended).  Every emitted overlap record carries the query's
chromosome/start/end and all fields of the reference (flattened): in
`find_overlapping_qtls` the record is exactly the seven fixed entries
(query chromosome/start/end plus the reference's five own columns) followed
by all extra reference columns, and in `annotate_regions` each record carries
the query's three coordinates and all eight reference columns.  Extra query
columns beyond chromosome/start/end are not carried. -/
theorem overlap_record_fields :
    (∀ (region : Region) (q : QtlRef),
      (q.extra.map Prod.fst).Nodup →
      (∀ k ∈ q.extra.map Prod.fst, k ∉ (overlapBase region q).map Prod.fst) →
      mkOverlapRec region q = overlapBase region q ++ q.extra) ∧
    (∀ (region : Region) (g : GeneRec),
      mkAnnRec region g =
        ⟨region.chromosome, region.start, region.end_, g.chromosome, g.start,
         g.end_, g.width, g.strand, g.gene_id, g.gene_name, g.gene_biotype⟩) := by
  constructor
  · intro region q hnd hdisj
    have hsplit : qtlFieldList q =
        [("chromosome", Val.str q.chromosome), ("qtl_start", Val.int q.qtl_start),
         ("qtl_end", Val.int q.qtl_end), ("qtl_name", Val.str q.qtl_name),
         ("qtl_number", valOfOpt q.qtl_number)] ++ q.extra := rfl
    have hbase : ∀ k ∈ q.extra.map Prod.fst,
        k ∉ (overlapBase region q).map Prod.fst := hdisj
    calc mkOverlapRec region q
        = q.extra.foldl addIfAbsent (overlapBase region q) := by
          rw [mkOverlapRec, hsplit, List.foldl_append, foldl_fixed_noop]
      _ = overlapBase region q ++ q.extra :=
          foldl_addIfAbsent_append q.extra (overlapBase region q) hnd hbase
  · intro region g
    rfl

/-- A reference QTL with two extra columns (trait, p_value), as produced by
the GFF parser. -/
def qtlY : QtlRef :=
  ⟨"Chr.1", 150, 250, "G1", some "7",
   [("trait", Val.str "Milk"), ("p_value", Val.str "0.01")]⟩

/-- Witness for the amended C4 theorem at a reference row with extra columns. -/
theorem overlap_record_fields_w :
    mkOverlapRec regionX qtlY = overlapBase regionX qtlY ++ qtlY.extra :=
  overlap_record_fields.1 regionX qtlY (by decide) (by decide)

/-- `coerceRegions` preserves each kept row's chromosome verbatim. -/
lemma coerceRegions_chromosomes :
    ∀ (rows : List RawQueryRow) (out : List Region),
      coerceRegions rows = .ok out →
      out.map (fun r => r.chromosome) = rows.map (fun r => r.chromosome)
  | [], out, h => by
    simp only [coerceRegions] at h
    cases h; rfl
  | r :: rest, out, h => by
    simp only [coerceRegions] at h
    cases hs : pyInt r.start with
    | none => rw [hs] at h; cases h
    | some s =>
      cases he : pyInt r.end_ with
      | none => rw [hs, he] at h; cases h
      | some e =>
        rw [hs, he] at h
        cases hrest : coerceRegions rest with
        | error msg => rw [hrest] at h; cases h
        | ok rs =>
          rw [hrest] at h
          cases h
          simpa using coerceRegions_chromosomes rest rs hrest

/-- C5.  The query-region parser of the QTL workflow rewrites every chromosome
value `c` to `"Chr." ++ c` unless it already starts with `"Chr."`, while the
query path inside the gene-annotation workflow leaves every kept row's
chromosome value unchanged. -/
theorem query_chrom_normalization :
    (∀ (rows : List RawQueryRow) (out : List Region),
      parse_input_regions rows = .ok out →
      out.map (fun r => r.chromosome) =
        rows.map (fun r =>
          if startsWithStr "Chr." r.chromosome then r.chromosome
          else "Chr." ++ r.chromosome)) ∧
    (∀ (rows : List RawQueryRow) (r : Region),
      r ∈ annotateLoadQueries rows →
      ∃ raw ∈ rows, r.chromosome = raw.chromosome) := by
  constructor
  · intro rows out h
    have := coerceRegions_chromosomes _ _ h
    rw [this]
    simp [normalizeChrom, Function.comp]
  · intro rows r h
    rw [annotateLoadQueries, List.mem_filterMap] at h
    obtain ⟨raw, hraw, hsome⟩ := h
    refine ⟨raw, hraw, ?_⟩
    cases hs : pyInt raw.start with
    | none => rw [hs] at hsome; cases hsome
    | some s =>
      cases he : pyInt raw.end_ with
      | none => rw [hs, he] at hsome; cases hsome
      | some e =>
        rw [hs, he] at hsome
        cases hsome
        rfl

/-- Witness for C5: a bare-numeric chromosome is prefixed by the QTL query
parser and left untouched by the annotate query path. -/
theorem query_chrom_normalization_w :
    ([(⟨"Chr.1", 10, 20, []⟩ : Region)].map (fun r => r.chromosome) =
      [(⟨"1", "10", "20", []⟩ : RawQueryRow)].map (fun r =>
        if startsWithStr "Chr." r.chromosome then r.chromosome
        else "Chr." ++ r.chromosome)) ∧
    ∃ raw ∈ [(⟨"2", "5", "9", []⟩ : RawQueryRow)],
      (⟨"2", 5, 9, []⟩ : Region).chromosome = raw.chromosome :=
  ⟨query_chrom_normalization.1 [⟨"1", "10", "20", []⟩] [⟨"Chr.1", 10, 20, []⟩] rfl,
   query_chrom_normalization.2 [⟨"2", "5", "9", []⟩] ⟨"2", 5, 9, []⟩ (by decide)⟩

/-- The name scan stops right after the first matching field: everything
before the match is accumulated, the match's digits become the number, and
nothing after the match is consulted. -/
lemma scanName_stop :
    ∀ (pre : List String) (v : String) (post : List String) (d : String),
      (∀ x ∈ pre, matchParen x = none) → matchParen v = some d →
      scanName (pre ++ v :: post) = (pre ++ [v], some d)
  | [], v, post, d, _, hv => by simp [scanName, hv]
  | x :: xs, v, post, d, hpre, hv => by
    have hx : matchParen x = none := hpre x (by simp)
    have ih := scanName_stop xs v post d (fun y hy => hpre y (by simp [hy])) hv
    simp [scanName, hx, ih]

/-- C6.  In the QTL-interval-list parser, rows with fewer than 4 columns are
silently skipped and produce no record; for rows with at least 4 columns whose
coordinates parse, the name-accumulation scan over columns 3..N stops at the
first column matching a leading parenthesized numeric token, captures that
token's digits as `qtl_number`, and appends no field occurring after the
matched token to the name. -/
theorem bed_name_scan :
    (∀ (row : List String), row.length < 4 → parse_qtl_bed [row] = .ok []) ∧
    (∀ (c s e : String) (pre : List String) (v : String) (post : List String)
       (sv ev : Int) (d : String),
      pyInt s = some sv → pyInt e = some ev →
      (∀ x ∈ pre, matchParen x = none) → matchParen v = some d →
      parse_qtl_bed [c :: s :: e :: (pre ++ v :: post)] =
        .ok [⟨c, sv, ev, pyStrip (joinSpace (pre ++ [v])), some d⟩]) := by
  constructor
  · intro row hlen
    have h : processBedRow row = .ok none := by
      simp [processBedRow, hlen]
    simp [parse_qtl_bed, h]
    rfl
  · intro c s e pre v post sv ev d hs he hpre hv
    have hlen : ¬ (c :: s :: e :: (pre ++ v :: post)).length < 4 := by
      simp [List.length_append]
      omega
    have hscan := scanName_stop pre v post d hpre hv
    have h : processBedRow (c :: s :: e :: (pre ++ v :: post)) =
        .ok (some ⟨c, sv, ev, pyStrip (joinSpace (pre ++ [v])), some d⟩) := by
      simp [processBedRow, hlen, hs, he, hscan]
      omega
    simp [parse_qtl_bed, h]
    rfl

/-- Witness for C6: a 3-column row is skipped; in a 6-column row the scan
stops at `(123)` and the trailing field `junk` is not part of the name. -/
theorem bed_name_scan_w :
    parse_qtl_bed [["1", "10", "20"]] = .ok [] ∧
      parse_qtl_bed [["1", "10", "20", "Milk", "(123)", "junk"]] =
        .ok [⟨"1", 10, 20, pyStrip (joinSpace (["Milk"] ++ ["(123)"])), some "123"⟩] :=
  ⟨bed_name_scan.1 ["1", "10", "20"] (by decide),
   bed_name_scan.2 "1" "10" "20" ["Milk"] "(123)" ["junk"] 10 20 "123"
     (by decide) (by decide) (by decide) (by decide)⟩

/-- First-occurrence deduplication keeps every element of the list. -/
lemma mem_dedupFirst : ∀ {l : List String} {a : String}, a ∈ l → a ∈ dedupFirst l
  | [], _, h => absurd h (by simp)
  | x :: xs, a, h => by
    rcases List.mem_cons.mp h with h1 | h2
    · simp [dedupFirst, h1]
    · by_cases hax : a = x
      · simp [dedupFirst, hax]
      · have ih := mem_dedupFirst h2
        simp only [dedupFirst, List.mem_cons]
        right
        rw [List.mem_filter]
        exact ⟨ih, by simpa using hax⟩

/-- Occurrences of a value in a mapped list are occurrences of its preimages. -/
lemma count_map_eq_length_filter (names : List String) (f : String → String)
    (t : String) :
    (names.map f).count t = (names.filter (fun x => f x == t)).length := by
  rw [List.count_eq_countP, List.countP_map, ← List.countP_eq_length_filter]
  rfl

/-- C7.  In the QTL (non-trait) summary, the frequency ranking is computed
over `qtl_name` with the bracketed suffix stripped: `"Milk fat QTL (1234)"` is
counted under the key `"Milk fat QTL"`, and the table assigns each occurring
stripped name exactly the number of records sharing that stripped name. -/
theorem qtl_trait_grouping :
    clean_qtl_name "Milk fat QTL (1234)" = "Milk fat QTL" ∧
    ∀ (names : List String) (t : String), t ∈ names.map clean_qtl_name →
      (t, (names.filter (fun x => clean_qtl_name x == t)).length) ∈
        qtl_trait_counts names := by
  constructor
  · decide
  · intro names t ht
    rw [qtl_trait_counts]
    rw [← count_map_eq_length_filter names clean_qtl_name t]
    exact List.mem_map_of_mem _ (mem_dedupFirst ht)

/-- Two records sharing the stripped name "Milk fat QTL". -/
def namesD : List String := ["Milk fat QTL (1234)", "Milk fat QTL (99)", "Other QTL"]

/-- Witness for C7 at a concrete record list. -/
theorem qtl_trait_grouping_w :
    ("Milk fat QTL",
      (namesD.filter (fun x => clean_qtl_name x == "Milk fat QTL")).length) ∈
      qtl_trait_counts namesD :=
  qtl_trait_grouping.2 namesD "Milk fat QTL" (by decide)

/-- A non-comment, non-blank line with other than 9 tab-separated columns is
skipped. -/
lemma processGffLine_skip (line : String)
    (h1 : startsWithStr "#" line = false) (h2 : pyStrip line ≠ "")
    (h3 : (splitTab (pyStrip line)).length ≠ 9) :
    processGffLine line = .ok none := by
  have h2' : (pyStrip line == "") = false := by simpa using h2
  simp [processGffLine, h1, h2', h3]

/-- A `dict()` built over attribute items containing an entry with two or more
`=` characters raises. -/
lemma buildPairs_error :
    ∀ (items : List String) (item : String), item ∈ items →
      item.toList.contains '=' = true → 3 ≤ (splitEq item).length →
      ∃ e, buildPairs items = .error e
  | [], item, h, _, _ => absurd h (by simp)
  | it :: rest, item, h, hc, hlen => by
    rcases List.mem_cons.mp h with h1 | h2
    · subst h1
      rcases hsp : splitEq item with _ | ⟨a, _ | ⟨b, _ | ⟨c2, cs⟩⟩⟩
      · rw [hsp] at hlen; simp at hlen
      · rw [hsp] at hlen; simp at hlen
      · rw [hsp] at hlen; simp at hlen
      · refine ⟨"dictionary update sequence element has wrong length", ?_⟩
        rw [buildPairs, if_pos hc, hsp]
    · obtain ⟨e, he⟩ := buildPairs_error rest item h2 hc hlen
      by_cases hch : it.toList.contains '=' = true
      · rcases hsp : splitEq it with _ | ⟨a, _ | ⟨b, _ | ⟨c2, cs⟩⟩⟩
        · exact ⟨_, by rw [buildPairs, if_pos hch, hsp]⟩
        · exact ⟨_, by rw [buildPairs, if_pos hch, hsp]⟩
        · exact ⟨e, by rw [buildPairs, if_pos hch, hsp, he]; rfl⟩
        · exact ⟨_, by rw [buildPairs, if_pos hch, hsp]⟩
      · exact ⟨e, by rw [buildPairs, if_neg hch]; exact he⟩

/-- Binding a success just applies the continuation. -/
lemma exbind_ok {α β : Type} (a : α) (f : α → Except String β) :
    (Except.ok a : Except String α) >>= f = f a := rfl

/-- Binding a raised error short-circuits. -/
lemma exbind_err {α β : Type} (m : String) (f : α → Except String β) :
    (Except.error m : Except String α) >>= f = (Except.error m : Except String β) := rfl

/-- `pyIntE` on a numeric string succeeds. -/
lemma pyIntE_ok {s : String} {v : Int} (h : pyInt s = some v) :
    pyIntE s = .ok v := by rw [pyIntE, h]

/-- `pyIntE` on a non-numeric string raises. -/
lemma pyIntE_none {s : String} (h : pyInt s = none) :
    pyIntE s = .error ("invalid literal for int() with base 10: " ++ s) := by
  rw [pyIntE, h]

/-- The strict per-line pipeline of `processGffLine` on the relevant columns
of a 9-column line. -/
def gffPipeline (c0 c2 s e info : String) : Except String (Option GffRec) := do
  let sv ← pyIntE s
  let ev ← pyIntE e
  let pairs ← buildPairs (splitSemi (stripSemis info))
  Except.ok (some { chromosome := c0, qtl_start := sv, qtl_end := ev,
                    qtl_name := dictGet pairs "Name" "",
                    qtl_number := dictGet pairs "QTL_ID" "",
                    trait := c2,
                    p_value := dictGet pairs "P-value" "" })

/-- On a non-comment, non-blank line splitting into the nine columns
`[c0, c1, c2, s, e, c5, c6, c7, info]`, `processGffLine` runs the strict
pipeline on those columns. -/
lemma processGffLine_nine (line c0 c1 c2 s e c5 c6 c7 info : String)
    (h1 : startsWithStr "#" line = false) (h2' : (pyStrip line == "") = false)
    (hp : splitTab (pyStrip line) = [c0, c1, c2, s, e, c5, c6, c7, info]) :
    processGffLine line = gffPipeline c0 c2 s e info := by
  rw [processGffLine, if_neg (by simp [h1, h2']), hp]
  rfl

/-- C9.  In the QTL-feature-annotation parser, lines with a column count
other than 9 are silently skipped, while for a 9-column line a non-numeric
start or end column (columns 3 and 4) raises — the parse fails rather than
skipping the line. -/
theorem gff_strict_ints :
    (∀ (line : String), startsWithStr "#" line = false → pyStrip line ≠ "" →
      (splitTab (pyStrip line)).length ≠ 9 → parse_qtl_gff [line] = .ok []) ∧
    (∀ (line c0 c1 c2 s e c5 c6 c7 info : String),
      startsWithStr "#" line = false → pyStrip line ≠ "" →
      splitTab (pyStrip line) = [c0, c1, c2, s, e, c5, c6, c7, info] →
      (pyInt s = none ∨ pyInt e = none) →
      ∃ err, parse_qtl_gff [line] = .error err) := by
  constructor
  · intro line h1 h2 h3
    have h := processGffLine_skip line h1 h2 h3
    simp [parse_qtl_gff, h]
    rfl
  · intro line c0 c1 c2 s e c5 c6 c7 info h1 h2 hp h4
    have h2' : (pyStrip line == "") = false := by simpa using h2
    have hnine := processGffLine_nine line c0 c1 c2 s e c5 c6 c7 info h1 h2' hp
    have hproc : ∃ err, processGffLine line = .error err := by
      rcases h4 with h4 | h4
      · refine ⟨"invalid literal for int() with base 10: " ++ s, ?_⟩
        simp only [hnine, gffPipeline, pyIntE_none h4, exbind_err]
      · cases hs : pyInt s with
        | none =>
          refine ⟨"invalid literal for int() with base 10: " ++ s, ?_⟩
          simp only [hnine, gffPipeline, pyIntE_none hs, exbind_err]
        | some sv =>
          refine ⟨"invalid literal for int() with base 10: " ++ e, ?_⟩
          simp only [hnine, gffPipeline, pyIntE_ok hs, exbind_ok,
            pyIntE_none h4, exbind_err]
    obtain ⟨err, he⟩ := hproc
    exact ⟨err, by rw [parse_qtl_gff]; rw [he]; rfl⟩

/-- Witness for C9: a 2-column line is skipped; a 9-column line with a
non-numeric start column makes the parse fail. -/
theorem gff_strict_ints_w :
    parse_qtl_gff ["a\tb"] = .ok [] ∧
      ∃ err, parse_qtl_gff ["a\tb\tc\tx\t5\tf\tg\th\tName=1"] = .error err :=
  ⟨gff_strict_ints.1 "a\tb" (by decide) (by decide) (by decide),
   gff_strict_ints.2 "a\tb\tc\tx\t5\tf\tg\th\tName=1" "a" "b" "c" "x" "5" "f"
     "g" "h" "Name=1" (by decide) (by decide) (by decide) (Or.inl (by decide))⟩

/-- C10.  A 9-column line whose attribute column contains an entry with two or
more `=` characters (e.g. `Name=a=b`) makes the key-value mapping
construction raise, aborting the parse, even though its coordinates are
numeric and entries without `=` would merely be skipped. -/
theorem gff_attr_multi_eq_raises :
    ∀ (line c0 c1 c2 s e c5 c6 c7 info : String),
      startsWithStr "#" line = false → pyStrip line ≠ "" →
      splitTab (pyStrip line) = [c0, c1, c2, s, e, c5, c6, c7, info] →
      (∃ sv, pyInt s = some sv) → (∃ ev, pyInt e = some ev) →
      (∃ item ∈ splitSemi (stripSemis info),
        item.toList.contains '=' = true ∧ 3 ≤ (splitEq item).length) →
      ∃ err, parse_qtl_gff [line] = .error err := by
  intro line c0 c1 c2 s e c5 c6 c7 info h1 h2 hp hs he hbad
  have h2' : (pyStrip line == "") = false := by simpa using h2
  obtain ⟨sv, hs⟩ := hs
  obtain ⟨ev, he⟩ := he
  obtain ⟨item, hitem, hc, hlen⟩ := hbad
  obtain ⟨err, hbp⟩ := buildPairs_error _ item hitem hc hlen
  have hnine := processGffLine_nine line c0 c1 c2 s e c5 c6 c7 info h1 h2' hp
  have hproc : processGffLine line = .error err := by
    simp only [hnine, gffPipeline, pyIntE_ok hs, exbind_ok, pyIntE_ok he, hbp,
      exbind_err]
  exact ⟨err, by rw [parse_qtl_gff]; rw [hproc]; rfl⟩

/-- Witness for C10 at a line whose attribute column holds `Name=a=b`. -/
theorem gff_attr_multi_eq_raises_w :
    ∃ err, parse_qtl_gff ["Chr.1\tdb\tMilk\t100\t200\t.\t.\t.\tName=a=b"] =
      .error err :=
  gff_attr_multi_eq_raises "Chr.1\tdb\tMilk\t100\t200\t.\t.\t.\tName=a=b"
    "Chr.1" "db" "Milk" "100" "200" "." "." "." "Name=a=b"
    (by decide) (by decide) (by decide) ⟨100, by decide⟩ ⟨200, by decide⟩
    ⟨"Name=a=b", by decide, by decide, by decide⟩

end QGAT
